import Mathlib

/-!
Shallow embedding of the noteomatic pipeline (src/noteomatic) and proofs
about its note-splitting, parsing, persistence, caching and PDF-resize
logic.  Python strings are modelled as `List Char` with explicit
re-implementations of the `str` operations the code uses; machine words in
the hash functions are `Nat` reduced modulo `2 ^ 32`; fallible code returns
`Except String`.
-/

namespace Noteomatic

/-! ## Python string primitives on `List Char` -/

/-- Whitespace characters removed by Python `str.strip()` (ASCII subset). -/
def isPySpace (c : Char) : Bool :=
  c == ' ' || c == '\t' || c == '\n' || c == '\r' || c == '\x0b' || c == '\x0c'

/-- Python `str.strip()`: drop leading and trailing whitespace. -/
def stripL (s : List Char) : List Char :=
  ((s.dropWhile isPySpace).reverse.dropWhile isPySpace).reverse

/-- Scanner for Python `str.split(sep)` on a non-empty separator.  The
fuel argument starts at the length of the scanned list and bounds the
recursion; every step consumes at least one character, so with initial
fuel equal to the input length the fuel never runs out. -/
def splitOnAux (pat : List Char) : Nat → List Char → List Char → List (List Char)
  | 0, s, cur => [cur.reverse ++ s]
  | _ + 1, [], cur => [cur.reverse]
  | fuel + 1, c :: rest, cur =>
    if pat.isPrefixOf (c :: rest) && !pat.isEmpty then
      cur.reverse :: splitOnAux pat fuel (rest.drop (pat.length - 1)) []
    else
      splitOnAux pat fuel rest (c :: cur)

/-- Python `s.split(pat)`: split on every non-overlapping, leftmost
occurrence of `pat`. -/
def splitOnL (pat s : List Char) : List (List Char) :=
  splitOnAux pat s.length s []

/-- Scanner counting non-overlapping, leftmost occurrences of `pat`,
with the same fuel discipline as `splitOnAux`. -/
def countOccAux (pat : List Char) : Nat → List Char → Nat
  | 0, _ => 0
  | _ + 1, [] => 0
  | fuel + 1, c :: rest =>
    if pat.isPrefixOf (c :: rest) && !pat.isEmpty then
      countOccAux pat fuel (rest.drop (pat.length - 1)) + 1
    else
      countOccAux pat fuel rest

/-- Number of non-overlapping occurrences of `pat` in `s`. -/
def countOccL (pat s : List Char) : Nat :=
  countOccAux pat s.length s

/-- Scanner for Python `str.split(sep, maxsplit)`: at most `n` splits are
made; once they are used up the remainder is returned whole. -/
def splitOnNAux (pat : List Char) : Nat → Nat → List Char → List Char → List (List Char)
  | _, 0, s, cur => [cur.reverse ++ s]
  | 0, _ + 1, s, cur => [cur.reverse ++ s]
  | _ + 1, _ + 1, [], cur => [cur.reverse]
  | fuel + 1, n + 1, c :: rest, cur =>
    if pat.isPrefixOf (c :: rest) && !pat.isEmpty then
      cur.reverse :: splitOnNAux pat fuel n (rest.drop (pat.length - 1)) []
    else
      splitOnNAux pat fuel (n + 1) rest (c :: cur)

/-- Python `s.split(pat, n)`. -/
def splitOnN (pat : List Char) (n : Nat) (s : List Char) : List (List Char) :=
  splitOnNAux pat s.length n s []

/-- Python `pat in s` substring test. -/
def containsL (pat : List Char) : List Char → Bool
  | [] => pat.isEmpty
  | c :: rest => pat.isPrefixOf (c :: rest) || containsL pat rest

/-- Python `s.removeprefix(pat)`. -/
def removePre (pat s : List Char) : List Char :=
  if pat.isPrefixOf s then s.drop pat.length else s

/-- Python `s.removesuffix(pat)`. -/
def removeSuf (pat s : List Char) : List Char :=
  if pat.isSuffixOf s then s.take (s.length - pat.length) else s

/-- Splitting yields one more piece than there are separator occurrences:
`splitOnAux` and `countOccAux` walk the input in lock step. -/
theorem splitOnAux_length (pat : List Char) :
    ∀ fuel s cur, (splitOnAux pat fuel s cur).length = countOccAux pat fuel s + 1 := by
  intro fuel
  induction fuel with
  | zero => intro s cur; simp [splitOnAux, countOccAux]
  | succ f ih =>
    intro s cur
    cases s with
    | nil => simp [splitOnAux, countOccAux]
    | cons c rest =>
      by_cases h : (pat.isPrefixOf (c :: rest) && !pat.isEmpty) = true
      · simp [splitOnAux, countOccAux, h, ih]
      · simp [splitOnAux, countOccAux, h, ih]

theorem splitOnL_length (pat s : List Char) :
    (splitOnL pat s).length = countOccL pat s + 1 :=
  splitOnAux_length pat s.length s []

/-! ## `notes.py`: `split_notes` -/

/-- Model of `split_notes` (notes.py).  Mirrors the source faithfully: when
the text contains `<comment>`, the two-way unpack of
`note_result.split("</comment>")` is performed (raising `ValueError` when
the number of pieces is not two), but the article blobs are computed from
the ORIGINAL text `note_result`, not from the remainder after the comment
(the `note` variable in the source is never used). -/
def split_notes (note_result : String) : Except String (List String) :=
  let s := note_result.toList
  let articles :=
    ((splitOnL "<article>".toList s).drop 1).map
      (fun a => String.mk ((splitOnL "</article>".toList a).headD []))
  if containsL "<comment>".toList s then
    match splitOnL "</comment>".toList s with
    | [_comment, _note] => .ok articles
    | _ => .error "ValueError: unpack"
  else
    .ok articles

/-! ## Byte-level hashing

`hashlib.md5` and `hashlib.sha256` are re-implemented over byte lists
(`List Nat`, each entry `< 256`) with 32-bit words as `Nat` reduced
modulo `2 ^ 32`. -/

/-- Reduce modulo `2 ^ 32`. -/
def u32 (n : Nat) : Nat := n % 4294967296

/-- All-ones 32-bit word, used for bitwise complement. -/
def mask32 : Nat := 4294967295

/-- Rotate a 32-bit word left by `s` bits. -/
def rotl32 (x s : Nat) : Nat := u32 ((x <<< s) ||| (x >>> (32 - s)))

/-- Rotate a 32-bit word right by `s` bits. -/
def rotr32 (x s : Nat) : Nat := u32 ((x >>> s) ||| (x <<< (32 - s)))

/-- Little-endian bytes of `n`, `k` bytes long. -/
def leBytes : Nat → Nat → List Nat
  | 0, _ => []
  | k + 1, n => (n % 256) :: leBytes k (n / 256)

/-- Big-endian bytes of `n`, `k` bytes long. -/
def beBytes (k n : Nat) : List Nat := (leBytes k n).reverse

/-- Split a byte list into 64-byte chunks (fuel = list length). -/
def chunks64 : Nat → List Nat → List (List Nat)
  | 0, _ => []
  | _ + 1, [] => []
  | fuel + 1, l => l.take 64 :: chunks64 fuel (l.drop 64)

/-- Merkle–Damgård padding shared by MD5 and SHA-256: a `128` byte, then
zeros up to 56 mod 64, then the 64-bit message bit length. -/
def padZeros (len : Nat) : Nat := (119 - (len % 64)) % 64

/-- Hex digit characters, lowercase as produced by `hexdigest()`. -/
def hexChar : Nat → Char
  | 0 => '0' | 1 => '1' | 2 => '2' | 3 => '3' | 4 => '4' | 5 => '5'
  | 6 => '6' | 7 => '7' | 8 => '8' | 9 => '9' | 10 => 'a' | 11 => 'b'
  | 12 => 'c' | 13 => 'd' | 14 => 'e' | 15 => 'f' | _ => '0'

/-- Two lowercase hex digits of one byte. -/
def byteHex (b : Nat) : List Char := [hexChar (b / 16 % 16), hexChar (b % 16)]

/-- Lowercase hex rendering of a byte list (`hexdigest()`). -/
def bytesHex (bs : List Nat) : List Char := bs.flatMap byteHex

/-- UTF-8 encoding of one character (Python `str.encode()`). -/
def utf8Char (ch : Char) : List Nat :=
  let n := ch.toNat
  if n < 128 then [n]
  else if n < 2048 then [192 ||| (n >>> 6), 128 ||| (n &&& 63)]
  else if n < 65536 then
    [224 ||| (n >>> 12), 128 ||| ((n >>> 6) &&& 63), 128 ||| (n &&& 63)]
  else
    [240 ||| (n >>> 18), 128 ||| ((n >>> 12) &&& 63),
     128 ||| ((n >>> 6) &&& 63), 128 ||| (n &&& 63)]

/-- UTF-8 encoding of a character list. -/
def utf8Encode (s : List Char) : List Nat := s.flatMap utf8Char

/-! ### MD5 -/

/-- MD5 per-round sine-derived constants. -/
def md5K : List Nat :=
  [3614090360, 3905402710, 606105819, 3250441966,
   4118548399, 1200080426, 2821735955, 4249261313,
   1770035416, 2336552879, 4294925233, 2304563134,
   1804603682, 4254626195, 2792965006, 1236535329,
   4129170786, 3225465664, 643717713, 3921069994,
   3593408605, 38016083, 3634488961, 3889429448,
   568446438, 3275163606, 4107603335, 1163531501,
   2850285829, 4243563512, 1735328473, 2368359562,
   4294588738, 2272392833, 1839030562, 4259657740,
   2763975236, 1272893353, 4139469664, 3200236656,
   681279174, 3936430074, 3572445317, 76029189,
   3654602809, 3873151461, 530742520, 3299628645,
   4096336452, 1126891415, 2878612391, 4237533241,
   1700485571, 2399980690, 4293915773, 2240044497,
   1873313359, 4264355552, 2734768916, 1309151649,
   4149444226, 3174756917, 718787259, 3951481745]

/-- MD5 per-round left-rotation amounts. -/
def md5S : List Nat :=
  [7, 12, 17, 22, 7, 12, 17, 22, 7, 12, 17, 22, 7, 12, 17, 22,
   5, 9, 14, 20, 5, 9, 14, 20, 5, 9, 14, 20, 5, 9, 14, 20,
   4, 11, 16, 23, 4, 11, 16, 23, 4, 11, 16, 23, 4, 11, 16, 23,
   6, 10, 15, 21, 6, 10, 15, 21, 6, 10, 15, 21, 6, 10, 15, 21]

/-- The four MD5 word registers. -/
structure Md5State where
  a : Nat
  b : Nat
  c : Nat
  d : Nat

/-- Little-endian 32-bit word `g` of a 64-byte chunk. -/
def wordLE (chunk : List Nat) (g : Nat) : Nat :=
  chunk.getD (4 * g) 0 + 256 * chunk.getD (4 * g + 1) 0 +
    65536 * chunk.getD (4 * g + 2) 0 + 16777216 * chunk.getD (4 * g + 3) 0

/-- One MD5 round (round index `i` selects the mixer and message word). -/
def md5Step (M : Nat → Nat) (st : Md5State) (i : Nat) : Md5State :=
  let mix :=
    if i < 16 then (st.b &&& st.c) ||| ((st.b ^^^ mask32) &&& st.d)
    else if i < 32 then (st.d &&& st.b) ||| ((st.d ^^^ mask32) &&& st.c)
    else if i < 48 then st.b ^^^ st.c ^^^ st.d
    else st.c ^^^ (st.b ||| (st.d ^^^ mask32))
  let g :=
    if i < 16 then i
    else if i < 32 then (5 * i + 1) % 16
    else if i < 48 then (3 * i + 5) % 16
    else (7 * i) % 16
  let x := u32 (st.a + mix + md5K.getD i 0 + M g)
  ⟨st.d, u32 (st.b + rotl32 x (md5S.getD i 0)), st.b, st.c⟩

/-- Process one 64-byte chunk. -/
def md5Chunk (st : Md5State) (chunk : List Nat) : Md5State :=
  let r := (List.range 64).foldl (md5Step (wordLE chunk)) st
  ⟨u32 (st.a + r.a), u32 (st.b + r.b), u32 (st.c + r.c), u32 (st.d + r.d)⟩

/-- MD5 padding of a byte message. -/
def md5Pad (msg : List Nat) : List Nat :=
  msg ++ [128] ++ List.replicate (padZeros msg.length) 0 ++
    leBytes 8 ((8 * msg.length) % 18446744073709551616)

/-- MD5 digest (16 bytes) of a byte message. -/
def md5Bytes (msg : List Nat) : List Nat :=
  let padded := md5Pad msg
  let st := (chunks64 padded.length padded).foldl md5Chunk
    ⟨1732584193, 4023233417, 2562383102, 271733878⟩
  leBytes 4 st.a ++ leBytes 4 st.b ++ leBytes 4 st.c ++ leBytes 4 st.d

/-! ### SHA-256 -/

/-- SHA-256 round constants. -/
def sha256K : List Nat :=
  [1116352408, 1899447441, 3049323471, 3921009573,
   961987163, 1508970993, 2453635748, 2870763221,
   3624381080, 310598401, 607225278, 1426881987,
   1925078388, 2162078206, 2614888103, 3248222580,
   3835390401, 4022224774, 264347078, 604807628,
   770255983, 1249150122, 1555081692, 1996064986,
   2554220882, 2821834349, 2952996808, 3210313671,
   3336571891, 3584528711, 113926993, 338241895,
   666307205, 773529912, 1294757372, 1396182291,
   1695183700, 1986661051, 2177026350, 2456956037,
   2730485921, 2820302411, 3259730800, 3345764771,
   3516065817, 3600352804, 4094571909, 275423344,
   430227734, 506948616, 659060556, 883997877,
   958139571, 1322822218, 1537002063, 1747873779,
   1955562222, 2024104815, 2227730452, 2361852424,
   2428436474, 2756734187, 3204031479, 3329325298]

/-- The eight SHA-256 word registers. -/
structure Sha256State where
  a : Nat
  b : Nat
  c : Nat
  d : Nat
  e : Nat
  f : Nat
  g : Nat
  h : Nat

/-- Big-endian 32-bit word `g` of a 64-byte chunk. -/
def wordBE (chunk : List Nat) (g : Nat) : Nat :=
  16777216 * chunk.getD (4 * g) 0 + 65536 * chunk.getD (4 * g + 1) 0 +
    256 * chunk.getD (4 * g + 2) 0 + chunk.getD (4 * g + 3) 0

/-- SHA-256 message schedule: 64 expanded words of a chunk. -/
def shaSchedule (chunk : List Nat) : List Nat :=
  (List.range 64).foldl
    (fun w i =>
      if i < 16 then w ++ [wordBE chunk i]
      else
        let w15 := w.getD (i - 15) 0
        let w2 := w.getD (i - 2) 0
        let s0 := rotr32 w15 7 ^^^ rotr32 w15 18 ^^^ (w15 >>> 3)
        let s1 := rotr32 w2 17 ^^^ rotr32 w2 19 ^^^ (w2 >>> 10)
        w ++ [u32 (w.getD (i - 16) 0 + s0 + w.getD (i - 7) 0 + s1)])
    []

/-- One SHA-256 compression round. -/
def shaStep (w : List Nat) (st : Sha256State) (i : Nat) : Sha256State :=
  let s1 := rotr32 st.e 6 ^^^ rotr32 st.e 11 ^^^ rotr32 st.e 25
  let ch := (st.e &&& st.f) ^^^ ((st.e ^^^ mask32) &&& st.g)
  let t1 := u32 (st.h + s1 + ch + sha256K.getD i 0 + w.getD i 0)
  let s0 := rotr32 st.a 2 ^^^ rotr32 st.a 13 ^^^ rotr32 st.a 22
  let mj := (st.a &&& st.b) ^^^ (st.a &&& st.c) ^^^ (st.b &&& st.c)
  let t2 := u32 (s0 + mj)
  ⟨u32 (t1 + t2), st.a, st.b, st.c, u32 (st.d + t1), st.e, st.f, st.g⟩

/-- Process one 64-byte chunk. -/
def shaChunk (st : Sha256State) (chunk : List Nat) : Sha256State :=
  let w := shaSchedule chunk
  let r := (List.range 64).foldl (shaStep w) st
  ⟨u32 (st.a + r.a), u32 (st.b + r.b), u32 (st.c + r.c), u32 (st.d + r.d),
   u32 (st.e + r.e), u32 (st.f + r.f), u32 (st.g + r.g), u32 (st.h + r.h)⟩

/-- SHA-256 padding of a byte message (big-endian bit length). -/
def shaPad (msg : List Nat) : List Nat :=
  msg ++ [128] ++ List.replicate (padZeros msg.length) 0 ++
    beBytes 8 ((8 * msg.length) % 18446744073709551616)

/-- SHA-256 digest (32 bytes) of a byte message. -/
def sha256Bytes (msg : List Nat) : List Nat :=
  let padded := shaPad msg
  let st := (chunks64 padded.length padded).foldl shaChunk
    ⟨1779033703, 3144134277, 1013904242, 2773480762,
     1359893119, 2600822924, 528734635, 1541459225⟩
  beBytes 4 st.a ++ beBytes 4 st.b ++ beBytes 4 st.c ++ beBytes 4 st.d ++
    beBytes 4 st.e ++ beBytes 4 st.f ++ beBytes 4 st.g ++ beBytes 4 st.h

/-- Lowercase hex digest of SHA-256, as `hexdigest()` returns it. -/
def sha256Hex (msg : List Nat) : List Char := bytesHex (sha256Bytes msg)

/-! ## `notes.py`: `note_hash`, `parse_note`, `save_notes` -/

/-- Model of `note_hash` (notes.py): the first 8 hex characters of the MD5
digest of the UTF-8 encoded content. -/
def note_hash (content : String) : String :=
  String.mk ((bytesHex (md5Bytes (utf8Encode content.toList))).take 8)

/-- Scanner for `re.sub(r"</?article>", "", content)`: a single
left-to-right pass that deletes each occurrence of `<article>` or
`</article>` and resumes after the deleted match (fuel = list length). -/
def removeTagsAux : Nat → List Char → List Char
  | 0, s => s
  | _ + 1, [] => []
  | fuel + 1, c :: rest =>
    if "<article>".toList.isPrefixOf (c :: rest) then removeTagsAux fuel (rest.drop 8)
    else if "</article>".toList.isPrefixOf (c :: rest) then removeTagsAux fuel (rest.drop 9)
    else c :: removeTagsAux fuel rest

/-- `re.sub(r"</?article>", "", s)`. -/
def removeArticleTags (s : List Char) : List Char := removeTagsAux s.length s

/-- The content normalisation prefix of `parse_note`: strip the raw
content, delete article tags and strip again, then strip and remove a
markdown code fence. -/
def preprocess (raw : String) : List Char :=
  let content := stripL raw.toList
  let content := stripL (removeArticleTags content)
  removeSuf "```".toList (removePre "```markdown".toList (stripL content))

/-- Python `dict` assignment `d[k] = v` on an insertion-ordered
association list: overwrite in place when the key exists, append
otherwise. -/
def dictUpsert (k v : String) : List (String × String) → List (String × String)
  | [] => [(k, v)]
  | kv :: rest => if kv.1 = k then (k, v) :: rest else kv :: dictUpsert k v rest

/-- One `key: value` line of a YAML block mapping (split at the first
colon, both sides stripped). -/
def yamlLine (l : List Char) : Option (String × String) :=
  match l.span (fun c => c != ':') with
  | (k, ':' :: v) => some (String.mk (stripL k), String.mk (stripL v))
  | _ => none

/-- Model of the PyYAML `yaml.safe_load` library call as `parse_note` uses
it, restricted to flat `key: value` block mappings with scalar values kept
as strings.  An empty document (which loads as `None`) and a non-mapping
document are modelled as `none`; on both, `parse_note` in the source dies
with a `TypeError` when it applies mapping operations to the result. -/
def yamlSafeLoad (front : List Char) : Option (List (String × String)) :=
  let lines := ((splitOnL ['\n'] front).map stripL).filter (fun l => !l.isEmpty)
  if lines.isEmpty then none
  else
    match lines.mapM yamlLine with
    | none => none
    | some kvs => some (kvs.foldl (fun d kv => dictUpsert kv.1 kv.2 d) [])

/-- The front-matter extraction step of `parse_note`: if the stripped
content starts with `---`, perform the three-way unpack of
`content.split("---", 3)` (a `ValueError` when the piece count is not
three); otherwise the source reads the never-assigned local `front`,
raising `UnboundLocalError`. -/
def frontSplit (content : List Char) : Except String (List Char × List Char) :=
  if "---".toList.isPrefixOf (stripL content) then
    match splitOnN "---".toList 3 content with
    | [_, front, body] => .ok (front, body)
    | _ => .error "ValueError: unpack"
  else
    .error "UnboundLocalError: front"

/-- Model of `parse_note` (notes.py).  `today` stands for the value of the
library call `time.strftime("%Y-%m-%d")`. -/
def parse_note (raw_content : String) (today : String) :
    Except String (List (String × String) × String) :=
  let content := preprocess raw_content
  match frontSplit content with
  | .error e => .error e
  | .ok (front, body) =>
    match yamlSafeLoad front with
    | none => .error "TypeError: front matter is not a mapping"
    | some fm =>
      let fm :=
        if (List.lookup "title" fm).isNone then
          dictUpsert "title" ("untitled-" ++ note_hash raw_content) fm
        else fm
      let fm := if (List.lookup "date" fm).isNone then dictUpsert "date" today fm else fm
      .ok (fm, String.mk body)

/-- Model of the PyYAML `yaml.dump(front_matter, default_flow_style=False)`
library call on flat string mappings: one `key: value` line per entry,
keys sorted (PyYAML sorts keys by default). -/
def yamlDump (fm : List (String × String)) : String :=
  (List.insertionSort (fun a b : String × String => a.1 ≤ b.1) fm).foldl
    (fun acc kv => acc ++ kv.1 ++ ": " ++ kv.2 ++ "\n") ""

/-- The f-string `f"{front_matter['date']}_{front_matter['title']}.md"`. -/
def noteFilename (fm : List (String × String)) : String :=
  ((List.lookup "date" fm).getD "") ++ "_" ++ ((List.lookup "title" fm).getD "") ++ ".md"

/-- The file body written by `save_notes`: front matter re-dumped between
`---` fences followed by the stripped note content. -/
def renderNote (fm : List (String × String)) (content : String) : String :=
  "---\n" ++ yamlDump fm ++ "---\n\n" ++ String.mk (stripL content.toList)

/-- Model of `save_notes` (notes.py).  `store` is the output directory as
a filename-to-content association list; writing an existing name
overwrites it.  `canWrite` models the file system accepting or refusing a
write (disk full, permission).  The source loop has no exception handler,
so a raised error (from `parse_note` or from `write_text`) aborts the
remaining iterations while the files already written stay on disk: the
pair returned is the directory contents together with the escaped error,
if any. -/
def save_notes (notes : List String) (today : String) (canWrite : String → Bool)
    (store : List (String × String)) : List (String × String) × Option String :=
  match notes with
  | [] => (store, none)
  | note :: rest =>
    match parse_note note today with
    | .error e => (store, some e)
    | .ok (fm, content) =>
      let filename := noteFilename fm
      if canWrite filename then
        save_notes rest today canWrite (dictUpsert filename (renderNote fm content) store)
      else
        (store, some "OSError: write failed")

/-! ## `llm.py`: `_hash_images`, `query_llm_with_cleanup` -/

/-- One page image: MIME tag and binary content (a byte list models the
Python `bytes`). -/
structure ImageData where
  mime_type : String
  content : List Nat
deriving DecidableEq

/-- Key order used by `sorted(images, key=lambda x: x.mime_type)`. -/
def mimeLe (a b : ImageData) : Prop := a.mime_type ≤ b.mime_type

instance : DecidableRel mimeLe :=
  fun a b => inferInstanceAs (Decidable (a.mime_type ≤ b.mime_type))

instance : IsTotal ImageData mimeLe := ⟨fun a b => le_total a.mime_type b.mime_type⟩

instance : IsTrans ImageData mimeLe := ⟨fun _ _ _ hab hbc => le_trans hab hbc⟩

/-- Model of `_hash_images` (llm.py).  Python's `sorted` is a stable sort
by the mime key, which `List.insertionSort mimeLe` reproduces
(`orderedInsert` keeps an inserted element before strictly greater keys
only, so the relative order of equal keys is preserved); the successive
`hasher.update` calls concatenate each image's bytes and UTF-8 encoded
MIME tag into one stream that is SHA-256 hashed. -/
def _hash_images (images : List ImageData) : String :=
  let stream := (List.insertionSort mimeLe images).foldl
    (fun acc img => acc ++ img.content ++ utf8Encode img.mime_type.toList) []
  String.mk (sha256Hex stream)

/-- Payload of one chat message: text, or the batch of images attached by
the initial request (the base64 data-URL serialisation is inert here and
kept structural). -/
inductive MsgContent where
  | text : String → MsgContent
  | images : List ImageData → MsgContent

/-- One chat message sent to the inference service. -/
structure Message where
  role : String
  content : MsgContent

/-- First line of the extraction system prompt (the full text is inert
for the properties verified here). -/
def SYSTEM_PROMPT : String := "You are a note analysis assistant."

/-- The user prompt of the initial request. -/
def USER_PROMPT : String := "Analyze the handwritten notes in the attached images."

/-- First line of the cleanup prompt (the full text is inert here). -/
def CLEANUP_PROMPT : String :=
  "Given the set of input HTML notes, separated by article blocks, you provide a review."

/-- Model of `_make_initial_request` (llm.py): system prompt, user prompt,
then all batch images in one message. -/
def _make_initial_request (images : List ImageData) : List Message :=
  [⟨"system", .text SYSTEM_PROMPT⟩, ⟨"user", .text USER_PROMPT⟩, ⟨"user", .images images⟩]

/-- Model of `query_llm_with_cleanup` (llm.py).  `cache` is the cache
directory as a map from file name to stored text; `llm` stands for the
`litellm.completion` call (deterministic oracle from the request
messages).  The result triple is the returned text, the number of
inference calls issued, and the cache directory afterwards.  On a hit the
stored text is returned with no inference call; on a miss two passes run
and the cleaned text is written to the cache file. -/
def query_llm_with_cleanup (llm : List Message → String) (cache : String → Option String)
    (img_batch : List ImageData) : String × Nat × (String → Option String) :=
  let cache_key := _hash_images img_batch
  let cache_file := cache_key ++ ".txt"
  match cache cache_file with
  | some text => (text, 0, cache)
  | none =>
    let first_pass := llm (_make_initial_request img_batch)
    let cleaned := llm
      [⟨"system", .text SYSTEM_PROMPT⟩, ⟨"user", .text first_pass⟩,
       ⟨"user", .text CLEANUP_PROMPT⟩]
    (cleaned, 2, fun name => if name = cache_file then some cleaned else cache name)

/-! ## `pdf.py`: page resizing -/

/-- Model of `PdfOptions` (pdf.py). -/
structure PdfOptions where
  short_dimension : Nat := 768 * 2
  quality : Nat := 85

/-- Observable parameters of one produced page image: MIME tag, pixel
dimensions and JPEG quality. -/
structure PageImage where
  mime_type : String
  width : Nat
  height : Nat
  quality : Nat
deriving DecidableEq

/-- Model of the per-page body of `extract_images_from_pdf` (pdf.py) for a
page whose pdfium rendering is `w × h` pixels:
`long_dimension = int(bitmap.height * options.short_dimension / bitmap.width)`
is floor division, and the page is resized to
`(options.short_dimension, long_dimension)` and JPEG-encoded at
`options.quality`.  Rasterization and JPEG byte encoding (pypdfium2 / PIL)
are external and abstracted to the recorded dimensions and parameters. -/
def render_page (options : PdfOptions) (w h : Nat) : PageImage :=
  { mime_type := "image/jpeg"
    width := options.short_dimension
    height := h * options.short_dimension / w
    quality := options.quality }

/-! ## Claim theorems -/

/-- C5: on the spec's concrete inputs, `split_notes` of
`"<comment>X</comment><article>A</article><article>B</article>"` returns
exactly `["A", "B"]`, the comment text `"X"` occurs in neither returned
element, and `split_notes "no delimiters here"` returns the empty list. -/
theorem split_notes_spec_examples :
    split_notes "<comment>X</comment><article>A</article><article>B</article>" =
      .ok ["A", "B"] ∧
    containsL "X".toList "A".toList = false ∧
    containsL "X".toList "B".toList = false ∧
    split_notes "no delimiters here" = .ok [] :=
  ⟨rfl, rfl, rfl, rfl⟩

/-- C4: evaluation of `split_notes` at a failing input.  The comment block
`<comment>see <article>draft</article></comment>` should be discarded, but
because the article blobs are computed from the original text rather than
from the remainder after the comment split, the comment's inner text
`draft` comes back as a note blob of its own. -/
theorem split_notes_comment_leak :
    split_notes "<comment>see <article>draft</article></comment><article>A</article>" =
      .ok ["draft", "A"] ∧
    containsL "draft".toList "see <article>draft</article>".toList = true :=
  ⟨rfl, rfl⟩

/-- C10: whenever the input contains `<comment>` but the closing delimiter
`</comment>` does not occur exactly once, the two-way unpack of
`split("</comment>")` fails and `split_notes` raises `ValueError` instead
of returning note blobs. -/
theorem split_notes_malformed_comment (s : String)
    (h1 : containsL "<comment>".toList s.toList = true)
    (h2 : countOccL "</comment>".toList s.toList ≠ 1) :
    split_notes s = .error "ValueError: unpack" := by
  have hlen := splitOnL_length "</comment>".toList s.toList
  have hne : (splitOnL "</comment>".toList s.toList).length ≠ 2 := by omega
  simp only [split_notes, h1, if_true]
  revert hne
  rcases splitOnL "</comment>".toList s.toList with _ | ⟨a, _ | ⟨b, _ | ⟨c, t⟩⟩⟩ <;>
    intro hne <;> simp_all

/-- C10 witness: an unterminated comment makes `split_notes` raise. -/
theorem split_notes_malformed_comment_witness :
    containsL "<comment>".toList "<comment>oops<article>A</article>".toList = true ∧
    countOccL "</comment>".toList "<comment>oops<article>A</article>".toList ≠ 1 ∧
    split_notes "<comment>oops<article>A</article>" = .error "ValueError: unpack" :=
  ⟨rfl, by decide,
    split_notes_malformed_comment "<comment>oops<article>A</article>" rfl (by decide)⟩

/-- C9: when the normalised content does not start with `---`, the source
reads the never-assigned local `front`, so `parse_note` raises instead of
synthesizing a title and date, and persisting such a note through
`save_notes` fails (the directory is left unchanged and the error
escapes). -/
theorem parse_note_missing_front_matter (raw today : String)
    (h : "---".toList.isPrefixOf (stripL (preprocess raw)) = false) :
    parse_note raw today = .error "UnboundLocalError: front" ∧
    ∀ canWrite store, save_notes [raw] today canWrite store =
      (store, some "UnboundLocalError: front") := by
  have hf : frontSplit (preprocess raw) = .error "UnboundLocalError: front" := by
    unfold frontSplit
    rw [h]
    simp
  have hp : parse_note raw today = .error "UnboundLocalError: front" := by
    simp only [parse_note]
    rw [hf]
  exact ⟨hp, fun canWrite store => by simp only [save_notes]; rw [hp]⟩

/-- C9 witness: a note with no front-matter block fails to parse and to
persist. -/
theorem parse_note_missing_front_matter_witness :
    parse_note "hello" "2025-10-12" = .error "UnboundLocalError: front" ∧
    ∀ canWrite store, save_notes ["hello"] "2025-10-12" canWrite store =
      (store, some "UnboundLocalError: front") :=
  parse_note_missing_front_matter "hello" "2025-10-12" rfl

/-- C2: when the cache file named from the batch hash already holds some
text, `query_llm_with_cleanup` returns exactly that text, issues zero
inference calls and leaves the cache unchanged; consequently re-running on
byte-identical batch content after any first run is a cache hit that
returns the first run's text with zero new inference calls. -/
theorem query_llm_with_cleanup_cache (llm : List Message → String)
    (batch : List ImageData) :
    (∀ cache text, cache (_hash_images batch ++ ".txt") = some text →
        query_llm_with_cleanup llm cache batch = (text, 0, cache)) ∧
    (∀ cache : String → Option String,
        query_llm_with_cleanup llm (query_llm_with_cleanup llm cache batch).2.2 batch =
          ((query_llm_with_cleanup llm cache batch).1, 0,
            (query_llm_with_cleanup llm cache batch).2.2)) := by
  constructor
  · intro cache text h
    simp [query_llm_with_cleanup, h]
  · intro cache
    cases hc : cache (_hash_images batch ++ ".txt") with
    | some t => simp [query_llm_with_cleanup, hc]
    | none => simp [query_llm_with_cleanup, hc]

/-- C2 witness: a warm cache is returned verbatim with zero calls. -/
theorem query_llm_with_cleanup_cache_witness :
    query_llm_with_cleanup (fun _ => "out") (fun _ => some "stored") [] =
      ("stored", 0, fun _ => some "stored") :=
  (query_llm_with_cleanup_cache (fun _ => "out") []).1 (fun _ => some "stored") "stored" rfl

/-- C8 (counterexample): on a landscape page rendered at 2000 × 1000
pixels, the produced image is 1536 × 768, whose shorter edge is 768, not
the fixed target 1536 — the code always assigns the target to the width,
not to the shorter edge. -/
theorem render_page_landscape_cex :
    min (render_page {} 2000 1000).width (render_page {} 2000 1000).height ≠ 1536 := by
  decide

/-- C8 (amended): for every page whose rendering is portrait or square
(width at most height, width positive), the width — which is then the
shorter edge — equals the fixed target 1536 = 768 * 2, the height is
scaled to `h * 1536 / w` (the aspect ratio preserved up to the floor
rounding of `int()`), and the page is encoded as JPEG at quality 85. -/
theorem render_page_portrait (w h : Nat) (hw : 0 < w) (hwh : w ≤ h) :
    (render_page {} w h).width = 1536 ∧
    min (render_page {} w h).width (render_page {} w h).height = 1536 ∧
    (render_page {} w h).height * w ≤ h * 1536 ∧
    h * 1536 < ((render_page {} w h).height + 1) * w ∧
    (render_page {} w h).mime_type = "image/jpeg" ∧
    (render_page {} w h).quality = 85 := by
  have hh : (render_page {} w h).height = h * 1536 / w := rfl
  refine ⟨rfl, ?_, ?_, ?_, rfl, rfl⟩
  · have hge : 1536 ≤ h * 1536 / w := by
      have h1 : w * 1536 ≤ h * 1536 := Nat.mul_le_mul_right _ hwh
      calc 1536 = w * 1536 / w := by rw [Nat.mul_div_cancel_left _ hw]
        _ ≤ h * 1536 / w := Nat.div_le_div_right h1
    have : (render_page {} w h).width = 1536 := rfl
    rw [this, hh]
    exact min_eq_left hge
  · rw [hh]
    exact Nat.div_mul_le_self _ _
  · rw [hh]
    have hdm := Nat.div_add_mod (h * 1536) w
    have hmod := Nat.mod_lt (h * 1536) hw
    calc h * 1536 = w * (h * 1536 / w) + h * 1536 % w := hdm.symm
      _ < w * (h * 1536 / w) + w := by omega
      _ = (h * 1536 / w + 1) * w := by ring

/-- C8 amended witness: a portrait 1000 × 1414 rendering becomes a
1536-wide, 2171-high JPEG at quality 85. -/
theorem render_page_portrait_witness :
    0 < 1000 ∧ 1000 ≤ 1414 ∧
    ((render_page {} 1000 1414).width = 1536 ∧
      min (render_page {} 1000 1414).width (render_page {} 1000 1414).height = 1536 ∧
      (render_page {} 1000 1414).height * 1000 ≤ 1414 * 1536 ∧
      1414 * 1536 < ((render_page {} 1000 1414).height + 1) * 1000 ∧
      (render_page {} 1000 1414).mime_type = "image/jpeg" ∧
      (render_page {} 1000 1414).quality = 85) :=
  ⟨by decide, by decide, render_page_portrait 1000 1414 (by decide) (by decide)⟩

/-! ### Helper lemmas for `parse_note` and `note_hash` -/

/-- The sixteen lowercase hex digit characters. -/
def hexDigits : List Char := "0123456789abcdef".toList

theorem hexChar_mem_hexDigits (n : Nat) : hexChar n ∈ hexDigits := by
  unfold hexChar
  split <;> decide

theorem length_leBytes (k : Nat) : ∀ n, (leBytes k n).length = k := by
  induction k with
  | zero => intro n; rfl
  | succ k ih => intro n; simp [leBytes, ih]

theorem md5Bytes_length (msg : List Nat) : (md5Bytes msg).length = 16 := by
  simp [md5Bytes, length_leBytes]

theorem bytesHex_length (bs : List Nat) : (bytesHex bs).length = 2 * bs.length := by
  induction bs with
  | nil => rfl
  | cons b t ih =>
    simp only [bytesHex, List.flatMap_cons] at ih ⊢
    simp [byteHex, ih]
    omega

theorem mem_bytesHex (bs : List Nat) : ∀ c ∈ bytesHex bs, c ∈ hexDigits := by
  induction bs with
  | nil => intro c hc; cases hc
  | cons b t ih =>
    intro c hc
    simp only [bytesHex, List.flatMap_cons, List.mem_append] at hc
    rcases hc with hc | hc
    · simp only [byteHex, List.mem_cons, List.mem_singleton] at hc
      rcases hc with rfl | rfl | h
      · exact hexChar_mem_hexDigits _
      · exact hexChar_mem_hexDigits _
      · cases h
    · exact ih c hc

theorem note_hash_length (s : String) : (note_hash s).length = 8 := by
  have h32 : (bytesHex (md5Bytes (utf8Encode s.toList))).length = 32 := by
    rw [bytesHex_length, md5Bytes_length]
  have hlen : (note_hash s).length =
      ((bytesHex (md5Bytes (utf8Encode s.toList))).take 8).length := rfl
  rw [hlen, List.length_take, h32]
  decide

theorem note_hash_chars (s : String) : ∀ c ∈ (note_hash s).toList, c ∈ hexDigits := by
  intro c hc
  have hl : (note_hash s).toList = (bytesHex (md5Bytes (utf8Encode s.toList))).take 8 := rfl
  rw [hl] at hc
  exact mem_bytesHex _ c (List.mem_of_mem_take hc)

theorem lookup_dictUpsert_self (k v : String) (d : List (String × String)) :
    List.lookup k (dictUpsert k v d) = some v := by
  induction d with
  | nil => simp [dictUpsert, List.lookup]
  | cons kv rest ih =>
    by_cases h : kv.1 = k
    · simp [dictUpsert, h, List.lookup]
    · have hne : (k == kv.1) = false := beq_eq_false_iff_ne.mpr (Ne.symm h)
      simp [dictUpsert, h, List.lookup, hne, ih]

theorem lookup_dictUpsert_ne (k k' v : String) (d : List (String × String))
    (h : k ≠ k') : List.lookup k (dictUpsert k' v d) = List.lookup k d := by
  have hne : (k == k') = false := beq_eq_false_iff_ne.mpr h
  induction d with
  | nil => simp [dictUpsert, List.lookup, hne]
  | cons kv rest ih =>
    by_cases hk : kv.1 = k'
    · subst hk
      simp [dictUpsert, List.lookup, hne]
    · simp [dictUpsert, hk, List.lookup, ih]

/-- C6: whenever the front matter parsed from a note loads as a mapping,
`parse_note` succeeds and: if the mapping lacks a `title` key, the result
carries the deterministic title `"untitled-"` followed by the first 8
lowercase hex characters of the MD5 of the raw content (8 characters, all
hex digits, hence non-empty); if the mapping lacks a `date` key, the
result carries `today` — the value of `time.strftime("%Y-%m-%d")`, i.e.
today's date in `YYYY-MM-DD` format. -/
theorem parse_note_synthesizes (raw today : String) (front body : List Char)
    (fm0 : List (String × String))
    (hsplit : frontSplit (preprocess raw) = .ok (front, body))
    (hyaml : yamlSafeLoad front = some fm0) :
    ∃ fm, parse_note raw today = .ok (fm, String.mk body) ∧
      (List.lookup "title" fm0 = none →
        List.lookup "title" fm = some ("untitled-" ++ note_hash raw) ∧
        (note_hash raw).length = 8 ∧
        ∀ c ∈ (note_hash raw).toList, c ∈ hexDigits) ∧
      (List.lookup "date" fm0 = none → List.lookup "date" fm = some today) := by
  have hrun : parse_note raw today =
      .ok ((let fm1 :=
              if (List.lookup "title" fm0).isNone then
                dictUpsert "title" ("untitled-" ++ note_hash raw) fm0
              else fm0;
            if (List.lookup "date" fm1).isNone then dictUpsert "date" today fm1 else fm1),
        String.mk body) := by
    simp only [parse_note, hsplit, hyaml]
  refine ⟨_, hrun, ?_, ?_⟩
  · intro h0
    have h0' : (List.lookup "title" fm0).isNone = true := by rw [h0]; rfl
    rw [if_pos h0']
    refine ⟨?_, note_hash_length raw, note_hash_chars raw⟩
    by_cases hd : (List.lookup "date"
        (dictUpsert "title" ("untitled-" ++ note_hash raw) fm0)).isNone = true
    · rw [if_pos hd, lookup_dictUpsert_ne _ _ _ _ (by decide : ("title" : String) ≠ "date")]
      exact lookup_dictUpsert_self _ _ _
    · rw [if_neg hd]
      exact lookup_dictUpsert_self _ _ _
  · intro h0
    by_cases ht : (List.lookup "title" fm0).isNone = true
    · rw [if_pos ht]
      have hd0' : (List.lookup "date"
          (dictUpsert "title" ("untitled-" ++ note_hash raw) fm0)).isNone = true := by
        rw [lookup_dictUpsert_ne _ _ _ _ (by decide : ("date" : String) ≠ "title"), h0]
        rfl
      rw [if_pos hd0']
      exact lookup_dictUpsert_self _ _ _
    · rw [if_neg ht]
      have h0' : (List.lookup "date" fm0).isNone = true := by rw [h0]; rfl
      rw [if_pos h0']
      exact lookup_dictUpsert_self _ _ _

/-- C6 witness: a note whose front matter has neither key gets the
synthesized title and today's date. -/
theorem parse_note_synthesizes_witness :
    ∃ fm, parse_note "---\nfoo: bar\n---\nBody text" "2025-10-12" =
        .ok (fm, String.mk "\nBody text".toList) ∧
      (List.lookup "title" [(("foo" : String), ("bar" : String))] = none →
        List.lookup "title" fm =
          some ("untitled-" ++ note_hash "---\nfoo: bar\n---\nBody text") ∧
        (note_hash "---\nfoo: bar\n---\nBody text").length = 8 ∧
        ∀ c ∈ (note_hash "---\nfoo: bar\n---\nBody text").toList, c ∈ hexDigits) ∧
      (List.lookup "date" [(("foo" : String), ("bar" : String))] = none →
        List.lookup "date" fm = some "2025-10-12") :=
  parse_note_synthesizes "---\nfoo: bar\n---\nBody text" "2025-10-12"
    "\nfoo: bar\n".toList "\nBody text".toList [("foo", "bar")] rfl rfl

/-! ### `save_notes` claims -/

/-- C3 (counterexample): persisting three notes where the write of note 2
fails.  The loop in `save_notes` has no exception handler, so the error
escapes (`some "OSError: write failed"`) and note 3's file
`2024-01-01_c.md` is NOT on disk afterwards — refuting the claim that
notes 1 and 3 both end up written. -/
theorem save_notes_not_partial_success :
    (save_notes
        ["---\ntitle: a\ndate: 2024-01-01\n---\nA",
         "---\ntitle: b\ndate: 2024-01-01\n---\nB",
         "---\ntitle: c\ndate: 2024-01-01\n---\nC"]
        "2025-10-12" (fun name => name != "2024-01-01_b.md") []).2 =
      some "OSError: write failed" ∧
    List.lookup "2024-01-01_c.md"
      (save_notes
        ["---\ntitle: a\ndate: 2024-01-01\n---\nA",
         "---\ntitle: b\ndate: 2024-01-01\n---\nB",
         "---\ntitle: c\ndate: 2024-01-01\n---\nC"]
        "2025-10-12" (fun name => name != "2024-01-01_b.md") []).1 = none :=
  ⟨rfl, rfl⟩

/-- Step equation of `save_notes` when the head note parses and its write
is attempted. -/
theorem save_notes_cons_ok (note : String) (rest : List String) (today : String)
    (canWrite : String → Bool) (store : List (String × String))
    (fm : List (String × String)) (content : String)
    (hp : parse_note note today = .ok (fm, content)) :
    save_notes (note :: rest) today canWrite store =
      if canWrite (noteFilename fm) = true then
        save_notes rest today canWrite
          (dictUpsert (noteFilename fm) (renderNote fm content) store)
      else
        (store, some "OSError: write failed") := by
  simp only [save_notes]
  rw [hp]

/-- C3 (amended): a write failure aborts `save_notes` rather than being
skipped: when persisting three notes and the write of note 2 fails, note 1
is on disk, the error escapes, and neither note 2 nor note 3 is written —
the output directory holds exactly note 1's file. -/
theorem save_notes_aborts_on_write_failure (n1 n2 n3 today : String)
    (canWrite : String → Bool) (fm1 fm2 : List (String × String)) (c1 c2 : String)
    (h1 : parse_note n1 today = .ok (fm1, c1))
    (h2 : parse_note n2 today = .ok (fm2, c2))
    (hw1 : canWrite (noteFilename fm1) = true)
    (hw2 : canWrite (noteFilename fm2) = false) :
    save_notes [n1, n2, n3] today canWrite [] =
      ([(noteFilename fm1, renderNote fm1 c1)], some "OSError: write failed") := by
  have hw2' : ¬ canWrite (noteFilename fm2) = true := by rw [hw2]; simp
  rw [save_notes_cons_ok _ _ _ _ _ _ _ h1, if_pos hw1,
    save_notes_cons_ok _ _ _ _ _ _ _ h2, if_neg hw2']
  rfl

/-- C3 amended witness: the concrete three-note run with note 2's write
refused ends with only note 1's file written. -/
theorem save_notes_aborts_on_write_failure_witness :
    save_notes
        ["---\ntitle: a\ndate: 2024-01-01\n---\nA",
         "---\ntitle: b\ndate: 2024-01-01\n---\nB",
         "---\ntitle: c\ndate: 2024-01-01\n---\nC"]
        "2025-10-12" (fun name => name != "2024-01-01_b.md") [] =
      ([(noteFilename [("title", "a"), ("date", "2024-01-01")],
         renderNote [("title", "a"), ("date", "2024-01-01")] "\nA")],
       some "OSError: write failed") :=
  save_notes_aborts_on_write_failure
    "---\ntitle: a\ndate: 2024-01-01\n---\nA"
    "---\ntitle: b\ndate: 2024-01-01\n---\nB"
    "---\ntitle: c\ndate: 2024-01-01\n---\nC"
    "2025-10-12" (fun name => name != "2024-01-01_b.md")
    [("title", "a"), ("date", "2024-01-01")] [("title", "b"), ("date", "2024-01-01")]
    "\nA" "\nB" rfl rfl rfl rfl

/-- C7: persisting two parseable notes whose front matter agrees on both
`date` and `title` into an empty directory leaves exactly one file on
disk, named from that shared identity, whose content is the rendering of
the SECOND note's front matter and body — the later write overwrites the
earlier one. -/
theorem save_notes_upsert (a b today : String)
    (fmA fmB : List (String × String)) (cA cB : String)
    (ha : parse_note a today = .ok (fmA, cA))
    (hb : parse_note b today = .ok (fmB, cB))
    (hdate : List.lookup "date" fmA = List.lookup "date" fmB)
    (htitle : List.lookup "title" fmA = List.lookup "title" fmB) :
    save_notes [a, b] today (fun _ => true) [] =
      ([(noteFilename fmB, renderNote fmB cB)], none) := by
  have hfn : noteFilename fmA = noteFilename fmB := by
    simp [noteFilename, hdate, htitle]
  rw [save_notes_cons_ok _ _ _ _ _ _ _ ha, if_pos rfl,
    save_notes_cons_ok _ _ _ _ _ _ _ hb, if_pos rfl, hfn]
  simp [save_notes, dictUpsert]

/-- C7 witness: two notes with identical (date, title) but different
bodies produce a single file holding the second body. -/
theorem save_notes_upsert_witness :
    save_notes
        ["---\ntitle: t\ndate: 2024-01-01\n---\nfirst",
         "---\ntitle: t\ndate: 2024-01-01\n---\nsecond"]
        "2025-10-12" (fun _ => true) [] =
      ([(noteFilename [("title", "t"), ("date", "2024-01-01")],
         renderNote [("title", "t"), ("date", "2024-01-01")] "\nsecond")], none) :=
  save_notes_upsert
    "---\ntitle: t\ndate: 2024-01-01\n---\nfirst"
    "---\ntitle: t\ndate: 2024-01-01\n---\nsecond"
    "2025-10-12" [("title", "t"), ("date", "2024-01-01")]
    [("title", "t"), ("date", "2024-01-01")] "\nfirst" "\nsecond" rfl rfl rfl rfl

/-! ### `_hash_images` claims -/

theorem filter_orderedInsert (x : ImageData) (m : String) (l : List ImageData) :
    (List.orderedInsert mimeLe x l).filter (fun i => i.mime_type == m) =
      if x.mime_type == m then x :: l.filter (fun i => i.mime_type == m)
      else l.filter (fun i => i.mime_type == m) := by
  induction l with
  | nil =>
    by_cases hxm : (x.mime_type == m) = true
    · simp [List.orderedInsert, List.filter, hxm]
    · simp [List.orderedInsert, List.filter, hxm]
  | cons y ys ih =>
    simp only [List.orderedInsert]
    by_cases hxy : mimeLe x y
    · rw [if_pos hxy]
      by_cases hxm : (x.mime_type == m) = true
      · simp [List.filter_cons, hxm]
      · simp [List.filter_cons, hxm]
    · rw [if_neg hxy]
      have hlt : y.mime_type < x.mime_type :=
        not_le.mp (fun hc => hxy hc)
      by_cases hxm : (x.mime_type == m) = true
      · have hxe : x.mime_type = m := eq_of_beq hxm
        have hym : (y.mime_type == m) = false :=
          beq_eq_false_iff_ne.mpr (by rw [← hxe]; exact ne_of_lt hlt)
        simp [List.filter_cons, hym, ih, hxm]
      · simp [List.filter_cons, ih, hxm]

theorem filter_insertionSort (m : String) (l : List ImageData) :
    (List.insertionSort mimeLe l).filter (fun i => i.mime_type == m) =
      l.filter (fun i => i.mime_type == m) := by
  induction l with
  | nil => rfl
  | cons x t ih =>
    simp only [List.insertionSort]
    rw [filter_orderedInsert]
    by_cases hxm : (x.mime_type == m) = true
    · rw [if_pos hxm, ih]
      simp [List.filter_cons, hxm]
    · rw [if_neg hxm, ih]
      simp [List.filter_cons, hxm]

/-- Two lists sorted by MIME key that agree on every per-MIME filter are
equal. -/
theorem sorted_ext_of_filter_eq :
    ∀ s1 s2 : List ImageData, s1.Sorted mimeLe → s2.Sorted mimeLe →
      (∀ m, s1.filter (fun i => i.mime_type == m) =
        s2.filter (fun i => i.mime_type == m)) →
      s1 = s2 := by
  intro s1
  induction s1 with
  | nil =>
    intro s2 _ _ h
    cases s2 with
    | nil => rfl
    | cons y ys =>
      exfalso
      have hy := h y.mime_type
      simp [List.filter_cons] at hy
  | cons x xs ih =>
    intro s2 hs1 hs2 h
    cases s2 with
    | nil =>
      exfalso
      have hx := h x.mime_type
      simp [List.filter_cons] at hx
    | cons y ys =>
      have hyx : y.mime_type ≤ x.mime_type := by
        obtain ⟨z, hz, hpz⟩ :
            ∃ z ∈ y :: ys, (z.mime_type == x.mime_type) = true := by
          by_contra hcon
          push_neg at hcon
          have hnil :
              (y :: ys).filter (fun i => i.mime_type == x.mime_type) = [] := by
            apply List.filter_eq_nil_iff.mpr
            intro a ha
            simp [hcon a ha]
          have hx := h x.mime_type
          rw [hnil] at hx
          simp [List.filter_cons] at hx
        have hze : z.mime_type = x.mime_type := eq_of_beq hpz
        rcases List.mem_cons.mp hz with rfl | hz'
        · exact le_of_eq hze
        · exact le_of_le_of_eq (List.rel_of_sorted_cons hs2 z hz') hze
      have hxy : x.mime_type ≤ y.mime_type := by
        obtain ⟨z, hz, hpz⟩ :
            ∃ z ∈ x :: xs, (z.mime_type == y.mime_type) = true := by
          by_contra hcon
          push_neg at hcon
          have hnil :
              (x :: xs).filter (fun i => i.mime_type == y.mime_type) = [] := by
            apply List.filter_eq_nil_iff.mpr
            intro a ha
            simp [hcon a ha]
          have hy := h y.mime_type
          rw [hnil] at hy
          simp [List.filter_cons] at hy
        have hze : z.mime_type = y.mime_type := eq_of_beq hpz
        rcases List.mem_cons.mp hz with rfl | hz'
        · exact le_of_eq hze
        · exact le_of_le_of_eq (List.rel_of_sorted_cons hs1 z hz') hze
      have hmm : x.mime_type = y.mime_type := le_antisymm hxy hyx
      have hhead := h x.mime_type
      rw [List.filter_cons, List.filter_cons] at hhead
      simp only [hmm, beq_self_eq_true, if_true] at hhead
      injection hhead with hxyeq htails0
      subst hxyeq
      have htail : ∀ m, xs.filter (fun i => i.mime_type == m) =
          ys.filter (fun i => i.mime_type == m) := by
        intro m
        have hm := h m
        rw [List.filter_cons, List.filter_cons] at hm
        by_cases hxm : (x.mime_type == m) = true
        · rw [if_pos hxm, if_pos hxm] at hm
          simpa using hm
        · rw [if_neg hxm, if_neg hxm] at hm
          exact hm
      exact congrArg (x :: ·) (ih ys hs1.of_cons hs2.of_cons htail)

set_option maxRecDepth 40000 in
/-- C1 (counterexample): two batches holding the same multiset of
(content, MIME tag) pairs — two JPEG pages with bodies `[0]` and `[1]`,
in the two orders — hash to different cache keys: the sort key is the
MIME tag alone and Python's sort is stable, so same-MIME images keep
their construction order inside the hash stream. -/
theorem _hash_images_order_sensitive :
    ([⟨"image/jpeg", [1]⟩, ⟨"image/jpeg", [0]⟩] : List ImageData).Perm
        [⟨"image/jpeg", [0]⟩, ⟨"image/jpeg", [1]⟩] ∧
    _hash_images [⟨"image/jpeg", [0]⟩, ⟨"image/jpeg", [1]⟩] ≠
      _hash_images [⟨"image/jpeg", [1]⟩, ⟨"image/jpeg", [0]⟩] := by
  refine ⟨List.Perm.swap _ _ _, ?_⟩
  have hs1 : List.insertionSort mimeLe [⟨"image/jpeg", [0]⟩, ⟨"image/jpeg", [1]⟩] =
      [⟨"image/jpeg", [0]⟩, ⟨"image/jpeg", [1]⟩] := by
    simp [List.insertionSort, List.orderedInsert, mimeLe]
  have hs2 : List.insertionSort mimeLe [⟨"image/jpeg", [1]⟩, ⟨"image/jpeg", [0]⟩] =
      [⟨"image/jpeg", [1]⟩, ⟨"image/jpeg", [0]⟩] := by
    simp [List.insertionSort, List.orderedInsert, mimeLe]
  have e1 : _hash_images [⟨"image/jpeg", [0]⟩, ⟨"image/jpeg", [1]⟩] =
      "3839fc9b84019827dff5ee70f8d0d28f5cf4228ddd90e0bce3fc3ec722360030" := by
    simp only [_hash_images, hs1]
    rfl
  have e2 : _hash_images [⟨"image/jpeg", [1]⟩, ⟨"image/jpeg", [0]⟩] =
      "58784bc882a441d02e859a90bdfcc454183280c53eda27bb5bc3baa909a08e4b" := by
    simp only [_hash_images, hs2]
    rfl
  rw [e1, e2]
  decide

/-- C1 (amended): the cache key is invariant under any reordering of the
batch that keeps the relative order of images sharing a MIME tag: whenever
the two batches have, for every MIME tag, the same subsequence of images
bearing that tag, `_hash_images` agrees on them. -/
theorem _hash_images_per_mime (b1 b2 : List ImageData)
    (h : ∀ m : String, b1.filter (fun i => i.mime_type == m) =
        b2.filter (fun i => i.mime_type == m)) :
    _hash_images b1 = _hash_images b2 := by
  have hs : List.insertionSort mimeLe b1 = List.insertionSort mimeLe b2 :=
    sorted_ext_of_filter_eq _ _ (List.sorted_insertionSort mimeLe b1)
      (List.sorted_insertionSort mimeLe b2)
      (fun m => by rw [filter_insertionSort, filter_insertionSort]; exact h m)
  simp only [_hash_images, hs]

/-- C1 amended witness: swapping two images of distinct MIME tags leaves
the cache key unchanged. -/
theorem _hash_images_per_mime_witness :
    _hash_images [⟨"image/png", [2]⟩, ⟨"image/jpeg", [1]⟩] =
      _hash_images [⟨"image/jpeg", [1]⟩, ⟨"image/png", [2]⟩] := by
  apply _hash_images_per_mime
  intro m
  by_cases h1 : (("image/png" : String) == m) = true
  · have e1 : ("image/png" : String) = m := eq_of_beq h1
    have h2 : (("image/jpeg" : String) == m) = false := by
      rw [← e1]
      decide
    simp [List.filter, h1, h2]
  · simp [List.filter, h1]

end Noteomatic
